import Mathlib

/-!
Verification of the BookNet recommendation subsystem.

Shallow embedding of `src/backend/services/recommendation.ts`,
`src/backend/routes/recommendation.ts` and the book-removal rating
rollback of `src/backend/routes/books.ts` (DELETE /books/:id).

Modelling conventions:
- JS `number` is modelled by `ℚ` (all arithmetic in the embedded code is
  exact except `Math.log`, which is modelled by an arbitrary function
  parameter `log : ℚ → ℚ` standing for the runtime's `Math.log`);
- a JS `Map<string, number>` is an association list in insertion order
  (`Map.set` replaces in place or appends, `Map.get` finds the entry);
- Mongoose documents become structures; `Book.find(query)` over a catalog
  becomes filtering a `List Book` by an explicit query predicate mirroring
  the Mongo query object built by the source;
- JS `Array.prototype.sort` (stable since ES2019) and the Mongo sort are
  modelled by the stable `List.mergeSort`.
-/

namespace BookNet

/-- Reading status of a library entry (`'toRead' | 'reading' | 'read'`,
`src/models/User.ts`). -/
inductive Status where
  | toRead
  | reading
  | read
  deriving DecidableEq

/-- Catalog book (`src/models/Book.ts`): cached descriptive fields plus the
aggregate rating fields maintained by the routes. `id` models
`_id.toString()`. -/
structure Book where
  id : String
  title : String
  author : String
  genres : List String
  coverImage : String
  averageRating : ℚ
  totalRatings : ℕ
  deriving DecidableEq

/-- Library membership record (`IUserBook`): a reference to a book by id, a
status, and an optional rating. -/
structure UserBook where
  book : String
  status : Status
  rating : Option ℚ
  deriving DecidableEq

/-- A JS `Map<string, number>` in insertion order. -/
abbrev WeightMap := List (String × ℚ)

/-- `Map.get`: value of the (unique) entry for `k`, if present. -/
def mapGet (m : WeightMap) (k : String) : Option ℚ :=
  (m.find? (fun p => p.1 = k)).map (fun p => p.2)

/-- `Map.set`: replace the entry for `k` in place, or append a new one. -/
def mapSet (m : WeightMap) (k : String) (v : ℚ) : WeightMap :=
  if m.any (fun p => p.1 = k) then
    m.map (fun p => if p.1 = k then (k, v) else p)
  else m ++ [(k, v)]

/-- The slice of `IUser` the recommendation subsystem reads and writes:
library entries, favorites (book ids), and the derived Preference Model
fields. A missing `preferredGenres`/`preferredAuthors` map is the empty
list (the source reads them through `|| new Map()`). -/
structure User where
  books : List UserBook
  favorites : List String
  preferredGenres : WeightMap
  preferredAuthors : WeightMap
  averageRating : Option ℚ
  totalBooksRead : ℕ
  deriving DecidableEq

/-- JS truthiness of an optional rating: `undefined` and `0` are falsy
(the source tests `!rating` and `b.rating`). -/
def ratingTruthy : Option ℚ → Bool
  | none => false
  | some r => r ≠ 0

/-- `ratingToWeight` (recommendation.ts lines 9–12):
`if (!rating || rating <= 2.5) return 0; return Math.max(0, (rating - 2) / 3);` -/
def ratingToWeight : Option ℚ → ℚ
  | none => 0
  | some r => if r = 0 ∨ r ≤ 5/2 then 0 else max 0 ((r - 2) / 3)

/-- `catalog.find` by id, modelling Mongoose population / `findById`. -/
def findBook (catalog : List Book) (id : String) : Option Book :=
  catalog.find? (fun b => b.id = id)

/-- The weight one `UserBook` entry contributes in `updateUserPreferences`
(lines 33–46): base weight from the rating, `+0.5` if its book is in the
favorites set, and the `0.1` fallback when the weight is still `0` and the
status is `toRead`. -/
def entryWeight (favorites : List String) (bookId : String) (ub : UserBook) : ℚ :=
  let base := ratingToWeight ub.rating
  let withFav := if favorites.any (fun fav => fav = bookId) then base + 1/2 else base
  if withFav = 0 ∧ ub.status = Status.toRead then 1/10 else withFav

/-- Inner loop over `book.genres` (lines 51–56): add `w` to each genre's
accumulator. -/
def addGenreScores (gs : WeightMap) (genres : List String) (w : ℚ) : WeightMap :=
  genres.foldl (fun m genre => mapSet m genre ((mapGet m genre).getD 0 + w)) gs

/-- One iteration of the `for (const userBook of user.books)` loop of
`updateUserPreferences` (lines 28–63), acting on the pair
(genre accumulator, author accumulator). Entries whose book does not
resolve, or whose weight is `≤ 0`, contribute nothing. -/
def accumEntry (catalog : List Book) (favorites : List String)
    (acc : WeightMap × WeightMap) (ub : UserBook) : WeightMap × WeightMap :=
  match findBook catalog ub.book with
  | none => acc
  | some book =>
      let w := entryWeight favorites book.id ub
      if w ≤ 0 then acc
      else
        (addGenreScores acc.1 book.genres w,
         if book.author = "" then acc.2
         else mapSet acc.2 book.author ((mapGet acc.2 book.author).getD 0 + w))

/-- `updateUserPreferences` (lines 17–78) as a pure state transformer on the
user, with the populated books supplied by `catalog`. Note the source only
assigns `user.averageRating` inside `if (ratedBooks.length > 0)`; with no
rated entry the previous value is left in place. -/
def updateUserPreferences (catalog : List Book) (user : User) : User :=
  let scores := user.books.foldl (accumEntry catalog user.favorites) ([], [])
  let ratedBooks := user.books.filter (fun b => ratingTruthy b.rating)
  let newAverage :=
    if 0 < ratedBooks.length then
      some ((ratedBooks.foldl (fun acc b => acc + b.rating.getD 0) 0) / (ratedBooks.length : ℚ))
    else user.averageRating
  { user with
    preferredGenres := scores.1
    preferredAuthors := scores.2
    averageRating := newAverage
    totalBooksRead := (user.books.filter (fun b => b.status = Status.read)).length }

/-- One condition inside the Mongo `$or` array built by `getRecommendations`:
`{ genres: { $in: topGenres } }` or `{ author: { $in: topAuthors } }`. -/
inductive QueryCond where
  | genreIn (genres : List String)
  | authorIn (authors : List String)
  deriving DecidableEq

/-- Mongo semantics of one `$or` condition: `$in` on the array field
`genres` matches when some element of the array is in the list; `$in` on
`author` matches when the author is in the list. -/
def condMatches (b : Book) : QueryCond → Bool
  | QueryCond.genreIn gs => b.genres.any (fun g => gs.contains g)
  | QueryCond.authorIn auths => auths.contains b.author

/-- The query object built by `getRecommendations` (lines 156–180): an
optional `$or` array and an optional top-level `genres: genreFilter`
equality condition. -/
structure Query where
  orConds : Option (List QueryCond)
  genreEq : Option String
  deriving DecidableEq

/-- Building the query (lines 156–180). `$or` is set only when the user has
preferences; the genre filter is added as an extra top-level field, which
Mongo conjoins with `$or` — it does not replace it. A falsy (empty) filter
string adds nothing (`if (genreFilter)`). -/
def buildQuery (topGenres topAuthors : List String) (genreFilter : Option String) : Query :=
  let hasPreferences := !topGenres.isEmpty || !topAuthors.isEmpty
  let orConditions : List QueryCond :=
    (if !topGenres.isEmpty then [QueryCond.genreIn topGenres] else []) ++
    (if !topAuthors.isEmpty then [QueryCond.authorIn topAuthors] else [])
  let orPart : Option (List QueryCond) :=
    if hasPreferences && !orConditions.isEmpty then some orConditions else none
  let genrePart : Option String :=
    match genreFilter with
    | some g => if g = "" then none else some g
    | none => none
  { orConds := orPart, genreEq := genrePart }

/-- Mongo match semantics of the query object: all top-level fields must
hold; `$or` holds when some condition in its array does; a string value on
the array field `genres` matches documents whose `genres` array contains
it. -/
def queryMatches (q : Query) (b : Book) : Bool :=
  (match q.orConds with
   | none => true
   | some conds => conds.any (condMatches b)) &&
  (match q.genreEq with
   | none => true
   | some g => b.genres.contains g)

/-- `getTopFromMap` (lines 126–132): entries stable-sorted by value
descending, first `limit` keys. -/
def getTopFromMap (m : WeightMap) (limit : ℕ) : List String :=
  (((m.mergeSort (fun a b => decide (b.2 ≤ a.2))).take limit).map (fun p => p.1))

/-- `calculateScore` (lines 101–121): genre affinity + 2× author affinity +
down-weighted popularity bonus. -/
def calculateScore (log : ℚ → ℚ) (b : Book)
    (preferredGenres preferredAuthors : WeightMap) : ℚ :=
  let genreScore := b.genres.foldl (fun acc g => acc + (mapGet preferredGenres g).getD 0) 0
  let authorScore := ((mapGet preferredAuthors b.author).getD 0) * 2
  let popularityBonus := b.averageRating * (1/10) * log ((b.totalRatings : ℚ) + 1)
  genreScore + authorScore + popularityBonus

/-- The catalog pre-sort `.sort({ averageRating: -1, totalRatings: -1 })`:
descending lexicographic on (averageRating, totalRatings). -/
def popLe (a b : Book) : Bool :=
  decide (b.averageRating < a.averageRating ∨
          (a.averageRating = b.averageRating ∧ b.totalRatings ≤ a.totalRatings))

/-- Candidate retrieval (lines 183–186): books matching the query,
popularity-sorted, truncated to the `limit * 5` over-fetch pool. -/
def candidateBooks (catalog : List Book) (q : Query) (limit : ℕ) : List Book :=
  ((catalog.filter (queryMatches q)).mergeSort popLe).take (limit * 5)

/-- The filtering-and-scoring loop (lines 189–201): drop candidates whose id
is already in the user's library, pair the rest with their score
(preference score or popularity-only score). -/
def scoredBooks (log : ℚ → ℚ) (user : User) (cands : List Book)
    (hasPreferences : Bool) : List (Book × ℚ) :=
  cands.filterMap (fun b =>
    if (user.books.map (fun ub => ub.book)).contains b.id then none
    else some (b, if hasPreferences
                  then calculateScore log b user.preferredGenres user.preferredAuthors
                  else b.averageRating * log ((b.totalRatings : ℚ) + 1)))

/-- `Math.round(score * 100) / 100`: round to 2 decimal places, halves
toward positive infinity. -/
def round2 (q : ℚ) : ℚ := ((⌊q * 100 + 1/2⌋ : ℤ) : ℚ) / 100

/-- One entry of the returned `recommendations` array (lines 207–215). -/
structure RecommendedBook where
  id : String
  title : String
  author : String
  genres : List String
  coverImage : String
  averageRating : ℚ
  score : ℚ
  deriving DecidableEq

/-- Presentation of a scored book (lines 207–215), rounding the score. -/
def presentBook (p : Book × ℚ) : RecommendedBook :=
  { id := p.1.id, title := p.1.title, author := p.1.author, genres := p.1.genres,
    coverImage := p.1.coverImage, averageRating := p.1.averageRating,
    score := round2 p.2 }

/-- The `basedOn` part of the result. -/
structure BasedOn where
  topGenres : List String
  topAuthors : List String
  deriving DecidableEq

/-- `RecommendationResult` (lines 90–96). -/
structure RecommendationResult where
  recommendations : List RecommendedBook
  basedOn : BasedOn
  deriving DecidableEq

/-- The comparator `(a, b) => b.score - a.score` of the final sort. -/
def scoreLe (a b : Book × ℚ) : Bool := decide (b.2 ≤ a.2)

/-- `getRecommendations` (lines 137–224), with the book catalog passed
explicitly and `log` standing for `Math.log`. -/
def getRecommendations (log : ℚ → ℚ) (catalog : List Book) (user : User)
    (limit : ℕ) (genreFilter : Option String) : RecommendationResult :=
  let topGenres := getTopFromMap user.preferredGenres 5
  let topAuthors := getTopFromMap user.preferredAuthors 5
  let hasPreferences := !topGenres.isEmpty || !topAuthors.isEmpty
  let q := buildQuery topGenres topAuthors genreFilter
  let cands := candidateBooks catalog q limit
  let scored := scoredBooks log user cands hasPreferences
  let sorted := scored.mergeSort scoreLe
  let topBooks := sorted.take limit
  { recommendations := topBooks.map presentBook,
    basedOn := { topGenres := topGenres, topAuthors := topAuthors } }

/-- Result of JS `Number(...)` on a query parameter: a numeric value, or
`NaN` for a malformed (non-numeric) string. -/
inductive JSNum where
  | nan
  | num (value : ℚ)
  deriving DecidableEq

/-- `Number(req.query.limit) || 10`: `NaN` and `0` are falsy and fall back
to the default `10`. -/
def numberOr10 : JSNum → ℚ
  | JSNum.nan => 10
  | JSNum.num v => if v = 0 then 10 else v

/-- `Math.min(Number(req.query.limit) || 10, 50)` (routes/recommendation.ts
line 11). -/
def effectiveLimit (limitParam : JSNum) : ℚ :=
  min (numberOr10 limitParam) 50

/-- Outcome of the `GET /recommendations` handler. -/
inductive RouteOutcome where
  | ok (result : RecommendationResult)
  | notFound
  | badRequest
  | serverError
  deriving DecidableEq

/-- HTTP status of an outcome. -/
def statusCode : RouteOutcome → ℕ
  | RouteOutcome.ok _ => 200
  | RouteOutcome.notFound => 404
  | RouteOutcome.badRequest => 400
  | RouteOutcome.serverError => 500

/-- Number of recommendations carried by an outcome. -/
def recommendationCount : RouteOutcome → ℕ
  | RouteOutcome.ok result => result.recommendations.length
  | _ => 0

/-- The `GET /recommendations` handler (routes/recommendation.ts lines
8–21): resolve the authenticated user, compute the effective limit, serve
the result; `User not found` becomes 404. No branch produces a 400. -/
def handleGetRecommendations (log : ℚ → ℚ) (catalog : List Book)
    (maybeUser : Option User) (limitParam : JSNum) : RouteOutcome :=
  match maybeUser with
  | none => RouteOutcome.notFound
  | some user =>
      RouteOutcome.ok
        (getRecommendations log catalog user (⌊effectiveLimit limitParam⌋).toNat none)

/-- The Book-side effect of `DELETE /books/:id` (routes/books.ts lines
391–404): when the removed entry carries a truthy rating and the book's
`totalRatings` is positive, decrement the count and recompute the average
from the removed sum, or reset it to 0 when the count reaches 0. -/
def removeRatingFromBook (book : Book) (entryRating : Option ℚ) : Book :=
  if ratingTruthy entryRating then
    if 0 < book.totalRatings then
      let sum := book.averageRating * (book.totalRatings : ℚ)
      let newTotal := book.totalRatings - 1
      { book with
        totalRatings := newTotal
        averageRating :=
          if 0 < newTotal then (sum - entryRating.getD 0) / (newTotal : ℚ) else 0 }
    else book
  else book

/-! ## Helper lemmas -/

theorem list_any_false (l : List String) : (l.any fun _ => false) = false := by
  induction l with
  | nil => rfl
  | cons a t ih => simp [List.any_cons, ih]

theorem ratingToWeight_nonneg (r : Option ℚ) : 0 ≤ ratingToWeight r := by
  cases r with
  | none => simp [ratingToWeight]
  | some q =>
      simp only [ratingToWeight]
      split
      · exact le_refl 0
      · exact le_max_left 0 ((q - 2) / 3)

theorem round2_mono {a b : ℚ} (h : a ≤ b) : round2 a ≤ round2 b := by
  have hf : ((⌊a * 100 + 1/2⌋ : ℤ) : ℚ) ≤ ((⌊b * 100 + 1/2⌋ : ℤ) : ℚ) := by
    exact_mod_cast Int.floor_le_floor (by linarith)
  unfold round2
  linarith

theorem round2_zero : round2 0 = 0 := by
  norm_num [round2]

theorem scoreLe_trans (a b c : Book × ℚ) (hab : scoreLe a b = true)
    (hbc : scoreLe b c = true) : scoreLe a c = true := by
  simp only [scoreLe, decide_eq_true_eq] at *
  exact le_trans hbc hab

theorem scoreLe_total (a b : Book × ℚ) : (scoreLe a b || scoreLe b a) = true := by
  simp only [scoreLe, Bool.or_eq_true, decide_eq_true_eq]
  exact le_total b.2 a.2

/-- Membership in the scored list: the candidate is kept, it is not in the
user's library, and it carries the branch-appropriate score. -/
theorem mem_scoredBooks {log : ℚ → ℚ} {user : User} {cands : List Book}
    {hp : Bool} {p : Book × ℚ} (hm : p ∈ scoredBooks log user cands hp) :
    p.1 ∈ cands ∧
    ((user.books.map (fun ub => ub.book)).contains p.1.id = false) ∧
    p.2 = (if hp then calculateScore log p.1 user.preferredGenres user.preferredAuthors
           else p.1.averageRating * log ((p.1.totalRatings : ℚ) + 1)) := by
  unfold scoredBooks at hm
  rcases List.mem_filterMap.mp hm with ⟨b, hb, hf⟩
  by_cases hc : (user.books.map (fun ub => ub.book)).contains b.id = true
  · rw [if_pos hc] at hf
    exact absurd hf (by simp)
  · rw [if_neg hc] at hf
    rcases Option.some.inj hf with rfl
    exact ⟨hb, by simpa using hc, rfl⟩

/-- Candidates come from the catalog and match the query. -/
theorem mem_candidateBooks {catalog : List Book} {q : Query} {limit : ℕ}
    {b : Book} (hb : b ∈ candidateBooks catalog q limit) :
    b ∈ catalog ∧ queryMatches q b = true := by
  unfold candidateBooks at hb
  have hb' : b ∈ (catalog.filter (queryMatches q)).mergeSort popLe :=
    (List.take_sublist _ _).mem hb
  have hb'' : b ∈ catalog.filter (queryMatches q) := List.mem_mergeSort.mp hb'
  exact ⟨List.mem_of_mem_filter hb'', List.of_mem_filter hb''⟩

/-- The final recommendation list is pairwise sorted by score descending. -/
theorem recommendations_sorted (log : ℚ → ℚ) (catalog : List Book) (user : User)
    (limit : ℕ) (genreFilter : Option String) :
    ((getRecommendations log catalog user limit genreFilter).recommendations).Pairwise
      (fun a b => b.score ≤ a.score) := by
  unfold getRecommendations
  simp only []
  apply List.Pairwise.map (R := fun p q : Book × ℚ => q.2 ≤ p.2)
  · intro p q hpq
    exact round2_mono hpq
  · apply List.Pairwise.sublist (List.take_sublist _ _)
    have hs := List.sorted_mergeSort scoreLe_trans scoreLe_total
      (scoredBooks log user
        (candidateBooks catalog
          (buildQuery (getTopFromMap user.preferredGenres 5)
            (getTopFromMap user.preferredAuthors 5) genreFilter) limit)
        (!(getTopFromMap user.preferredGenres 5).isEmpty ||
          !(getTopFromMap user.preferredAuthors 5).isEmpty))
    refine hs.imp ?_
    intro p q h
    simpa [scoreLe] using h

/-! ## Concrete objects used by witnesses and counterexamples -/

/-- Stand-in for `Math.log` where the logarithm's value never matters. -/
def log0 : ℚ → ℚ := fun _ => 0

/-- Stand-in for `Math.log` agreeing with the IEEE-double value of
`Math.log(3)` (`1.0986122886681098`) at the only point where the scorer
evaluates it in the `C8` scenario. -/
def log3 : ℚ → ℚ :=
  fun q => if q = 3 then (10986122886681098 : ℚ) / 10000000000000000 else 0

def bMyst : Book := ⟨"m1", "M", "Zed", ["Mystery"], "c", 4, 10⟩

/-- A user whose preference model favours the genre `SciFi` and whose
library is empty. -/
def uPref : User := ⟨[], [], [("SciFi", 1)], [], none, 0⟩

def u2 : User := ⟨[], [], [], [], some 4, 0⟩

def ub3 : UserBook := ⟨"b", Status.toRead, none⟩

def b7 : Book := ⟨"x", "X", "A", [], "c", 4, 2⟩

def b8 : Book := ⟨"b1", "T", "A", ["G"], "c", 5, 2⟩

def u8 : User := ⟨[], [], [], [], none, 0⟩

def bLib : Book := ⟨"lib1", "L", "A1", ["G"], "c", 5, 3⟩

def bNew : Book := ⟨"new1", "N", "A2", ["G"], "c", 3, 1⟩

def u6 : User := ⟨[⟨"lib1", Status.read, some 5⟩], [], [], [], none, 0⟩

def u10 : User := ⟨[⟨"g1", Status.read, some 5⟩], [], [], [], none, 0⟩

def b10 : Book := ⟨"g1", "G1", "Auth", ["Fantasy"], "c", 5, 1⟩

/-! ## Claims -/

/-- C5: `ratingToWeight` returns 0 for an absent rating and for any rating
at most 2.5 (including the falsy 0), returns `max 0 ((r - 2) / 3)` above
2.5, is monotone non-decreasing above 2.5, is bounded by 1 for ratings up
to 5, and takes the values 2/3 at rating 4 and 1 at rating 5. -/
theorem ratingToWeight_spec :
    ratingToWeight none = 0 ∧
    (∀ r : ℚ, r ≤ 5/2 → ratingToWeight (some r) = 0) ∧
    (∀ r : ℚ, 5/2 < r → ratingToWeight (some r) = max 0 ((r - 2) / 3)) ∧
    (∀ r s : ℚ, 5/2 < r → r ≤ s → ratingToWeight (some r) ≤ ratingToWeight (some s)) ∧
    (∀ r : ℚ, r ≤ 5 → ratingToWeight (some r) ≤ 1) ∧
    ratingToWeight (some 4) = 2/3 ∧
    ratingToWeight (some 5) = 1 := by
  refine ⟨rfl, ?_, ?_, ?_, ?_, ?_, ?_⟩
  · intro r hr
    simp only [ratingToWeight]
    rw [if_pos (Or.inr hr)]
  · intro r hr
    simp only [ratingToWeight]
    rw [if_neg]
    push_neg
    exact ⟨by linarith, by linarith⟩
  · intro r s hr hrs
    simp only [ratingToWeight]
    rw [if_neg (by push_neg; exact ⟨by linarith, by linarith⟩),
        if_neg (by push_neg; exact ⟨by linarith, by linarith⟩)]
    exact max_le_max (le_refl 0) (by linarith)
  · intro r hr
    simp only [ratingToWeight]
    split
    · norm_num
    · rename_i hcond
      push_neg at hcond
      exact max_le (by norm_num) (by linarith)
  · norm_num [ratingToWeight]
  · norm_num [ratingToWeight]

/-- Witness for C5 at concrete ratings (3 and 4 above the threshold). -/
theorem ratingToWeight_spec_witness :
    ((5:ℚ)/2 < 3 ∧ (3:ℚ) ≤ 4) ∧
    ratingToWeight (some 3) ≤ ratingToWeight (some 4) :=
  ⟨⟨by norm_num, by norm_num⟩,
   ratingToWeight_spec.2.2.2.1 3 4 (by norm_num) (by norm_num)⟩

/-- C7: removing a truthy rating `r` from a book with at least one
recorded rating decrements `totalRatings` and recomputes `averageRating`
as `(oldAverage * oldTotal - r) / (oldTotal - 1)` when the new count is
positive, and resets it to 0 when the count reaches 0. -/
theorem removeRating_spec (book : Book) (r : ℚ) (hr : r ≠ 0)
    (ht : 1 ≤ book.totalRatings) :
    (removeRatingFromBook book (some r)).totalRatings = book.totalRatings - 1 ∧
    (removeRatingFromBook book (some r)).averageRating =
      (if 1 < book.totalRatings
       then (book.averageRating * (book.totalRatings : ℚ) - r) /
            ((book.totalRatings : ℚ) - 1)
       else 0) := by
  unfold removeRatingFromBook
  rw [if_pos (by simp [ratingTruthy, hr]), if_pos (by omega)]
  refine ⟨rfl, ?_⟩
  by_cases h : 1 < book.totalRatings
  · rw [if_pos h]
    simp only [if_pos (by omega : 0 < book.totalRatings - 1)]
    rw [Nat.cast_sub ht]
    norm_num
  · rw [if_neg h]
    simp only [if_neg (by omega : ¬ 0 < book.totalRatings - 1)]

/-- Witness for C7: removing a rating of 5 from a book with average 4 and
2 ratings leaves 1 rating with average 3 (the spec's scenario). -/
theorem removeRating_spec_witness :
    ((5:ℚ) ≠ 0 ∧ 1 ≤ b7.totalRatings) ∧
    (removeRatingFromBook b7 (some 5)).totalRatings = 1 ∧
    (removeRatingFromBook b7 (some 5)).averageRating = 3 := by
  have h := removeRating_spec b7 5 (by norm_num) (by norm_num [b7])
  refine ⟨⟨by norm_num, by norm_num [b7]⟩, ?_, ?_⟩
  · rw [h.1]
    norm_num [b7]
  · rw [h.2]
    norm_num [b7]

/-- C3 (amended): a favorited entry always contributes `base + 0.5`; the
increase over the unfavorited entry is exactly 0.5 except when the base
weight from the rating is 0 and the status is `toRead`, where the
unfavorited entry receives the 0.1 fallback and the increase is only 0.4. -/
theorem favorite_bonus (bookId : String) (ub : UserBook) (favsF favsN : List String)
    (hf : favsF.any (fun fav => fav = bookId) = true)
    (hn : favsN.any (fun fav => fav = bookId) = false) :
    entryWeight favsF bookId ub = ratingToWeight ub.rating + 1/2 ∧
    (¬ (ratingToWeight ub.rating = 0 ∧ ub.status = Status.toRead) →
      entryWeight favsF bookId ub = entryWeight favsN bookId ub + 1/2) ∧
    (ratingToWeight ub.rating = 0 → ub.status = Status.toRead →
      entryWeight favsF bookId ub = 1/2 ∧ entryWeight favsN bookId ub = 1/10) := by
  have h0 := ratingToWeight_nonneg ub.rating
  have hF : entryWeight favsF bookId ub = ratingToWeight ub.rating + 1/2 := by
    simp only [entryWeight, hf, if_true]
    rw [if_neg (fun hcontra => by linarith [hcontra.1])]
  have hN : entryWeight favsN bookId ub =
      (if ratingToWeight ub.rating = 0 ∧ ub.status = Status.toRead
       then (1:ℚ)/10 else ratingToWeight ub.rating) := by
    simp only [entryWeight, hn, Bool.false_eq_true, if_false]
  refine ⟨hF, ?_, ?_⟩
  · intro hnot
    rw [hF, hN, if_neg hnot]
  · intro h1 h2
    rw [hF, hN, if_pos ⟨h1, h2⟩, h1]
    norm_num

/-- Witness for C3 (amended) at a rated (4-star) `read` entry: the
favorite bonus is exactly 0.5 there. -/
theorem favorite_bonus_witness :
    ((["b"].any (fun fav => fav = "b")) = true ∧
     (([] : List String).any (fun fav => fav = "b")) = false ∧
     ¬ (ratingToWeight (some 4) = 0 ∧ Status.read = Status.toRead)) ∧
    entryWeight ["b"] "b" ⟨"b", Status.read, some 4⟩ =
      entryWeight [] "b" ⟨"b", Status.read, some 4⟩ + 1/2 :=
  ⟨⟨by simp, by simp, by norm_num [ratingToWeight]⟩,
   (favorite_bonus "b" ⟨"b", Status.read, some 4⟩ ["b"] [] (by simp) (by simp)).2.1
     (by norm_num [ratingToWeight])⟩

/-- C3 counterexample: for an unrated `toRead` entry, the favorited weight
is 1/2 while the unfavorited weight is the 0.1 fallback — an increase of
0.4, so the flat "+0.5 for every status" claim fails. -/
theorem favorite_bonus_counterexample :
    entryWeight ["b"] "b" ub3 = 1/2 ∧
    entryWeight [] "b" ub3 = 1/10 ∧
    entryWeight ["b"] "b" ub3 ≠ entryWeight [] "b" ub3 + 1/2 := by
  refine ⟨?_, ?_, ?_⟩ <;> norm_num [entryWeight, ratingToWeight, ub3]

/-- C4 (amended): a malformed (`NaN`) limit parameter is coerced by
`Number(req.query.limit) || 10` to the default 10 and the request is served
with HTTP 200; no branch of the handler ever produces a 400. -/
theorem malformed_limit_served (log : ℚ → ℚ) (catalog : List Book) (user : User) :
    handleGetRecommendations log catalog (some user) JSNum.nan =
      RouteOutcome.ok (getRecommendations log catalog user 10 none) ∧
    (∀ (maybeUser : Option User) (limitParam : JSNum),
      statusCode (handleGetRecommendations log catalog maybeUser limitParam) ≠ 400) := by
  constructor
  · have h : (⌊effectiveLimit JSNum.nan⌋).toNat = 10 := by
      simp [effectiveLimit, numberOr10]
      decide
    unfold handleGetRecommendations
    rw [h]
  · intro maybeUser limitParam
    cases maybeUser <;> simp [handleGetRecommendations, statusCode]

/-- C4 counterexample: a request with a malformed limit is answered 200,
not 400. -/
theorem malformed_limit_counterexample :
    statusCode (handleGetRecommendations log0 [] (some u8) JSNum.nan) = 200 ∧
    (200 : ℕ) ≠ 400 := by
  constructor
  · simp [handleGetRecommendations, statusCode]
  · norm_num

/-- C2 (amended): recomputation derives `preferredGenres`,
`preferredAuthors` and `totalBooksRead` from the current library alone,
independently of the previous model, and `averageRating` likewise whenever
some entry carries a truthy rating; but when no entry is rated the
previous `averageRating` is retained instead of being cleared. -/
theorem updatePreferences_fresh (catalog : List Book) (books : List UserBook)
    (favorites : List String) (pg pg' pa pa' : WeightMap) (ar ar' : Option ℚ)
    (tb tb' : ℕ) :
    (updateUserPreferences catalog (User.mk books favorites pg pa ar tb)).preferredGenres =
      (updateUserPreferences catalog (User.mk books favorites pg' pa' ar' tb')).preferredGenres ∧
    (updateUserPreferences catalog (User.mk books favorites pg pa ar tb)).preferredAuthors =
      (updateUserPreferences catalog (User.mk books favorites pg' pa' ar' tb')).preferredAuthors ∧
    (updateUserPreferences catalog (User.mk books favorites pg pa ar tb)).totalBooksRead =
      (updateUserPreferences catalog (User.mk books favorites pg' pa' ar' tb')).totalBooksRead ∧
    (updateUserPreferences catalog (User.mk books favorites pg pa ar tb)).averageRating =
      (if books.any (fun b => ratingTruthy b.rating)
       then (updateUserPreferences catalog (User.mk books favorites pg' pa' ar' tb')).averageRating
       else ar) := by
  have hlen : (0 < (books.filter (fun b => ratingTruthy b.rating)).length) ↔
      books.any (fun b => ratingTruthy b.rating) = true := by
    rw [← List.countP_eq_length_filter, List.countP_pos_iff, List.any_eq_true]
  refine ⟨rfl, rfl, rfl, ?_⟩
  simp only [updateUserPreferences]
  by_cases h : books.any (fun b => ratingTruthy b.rating) = true
  · rw [if_pos h, if_pos (hlen.mpr h), if_pos (hlen.mpr h)]
  · rw [if_neg h, if_neg (fun hc => h (hlen.mp hc))]

/-- C2 counterexample: a user with an empty library (hence no rated entry)
and a stale `averageRating = 4` keeps that value after recomputation; the
claim requires it to become absent. -/
theorem updatePreferences_stale_average :
    u2.books = [] ∧
    (updateUserPreferences [] u2).averageRating = some 4 ∧
    (updateUserPreferences [] u2).averageRating ≠ none := by
  refine ⟨rfl, ?_, ?_⟩ <;> simp [updateUserPreferences, u2]

/-- C1 (amended): the explicit genre filter is conjoined with the
preference query: a book matches the candidate query iff it is tagged with
the filter genre AND, when the user has non-empty top genres or authors,
it additionally matches the preference OR-query. Only for a user with no
preferences does the query match exactly the books tagged with the filter
genre. -/
theorem genreFilter_conjoined (topGenres topAuthors : List String) (g : String)
    (b : Book) (hg : g ≠ "") :
    queryMatches (buildQuery topGenres topAuthors (some g)) b =
      (((topGenres.isEmpty && topAuthors.isEmpty) ||
        (b.genres.any (fun x => topGenres.contains x) ||
         topAuthors.contains b.author)) &&
       b.genres.contains g) := by
  rcases topGenres with _ | ⟨g0, tgs⟩ <;> rcases topAuthors with _ | ⟨a0, tas⟩ <;>
    simp [buildQuery, queryMatches, condMatches, hg, list_any_false]

/-- Witness for C1 (amended) at the counterexample's inputs. -/
theorem genreFilter_conjoined_witness :
    ("Mystery" ≠ "") ∧
    queryMatches (buildQuery ["SciFi"] [] (some "Mystery")) bMyst =
      (((["SciFi"].isEmpty && ([] : List String).isEmpty) ||
        (bMyst.genres.any (fun x => ["SciFi"].contains x) ||
         ([] : List String).contains bMyst.author)) &&
       bMyst.genres.contains "Mystery") :=
  ⟨by simp, genreFilter_conjoined ["SciFi"] [] "Mystery" bMyst (by simp)⟩

/-- C1 counterexample: a user whose only preference is the genre `SciFi`
requests recommendations filtered to `Mystery`; the catalog's Mystery book
is not in their library, yet it is excluded from the result because it
fails the preference `$or` part of the conjoined query. -/
theorem genreFilter_counterexample :
    "Mystery" ∈ bMyst.genres ∧
    bMyst.id ∉ uPref.books.map (fun ub => ub.book) ∧
    (getRecommendations log0 [bMyst] uPref 10 (some "Mystery")).recommendations = [] := by
  refine ⟨by simp [bMyst], by simp [uPref], ?_⟩
  simp [getRecommendations, getTopFromMap, uPref, bMyst, List.mergeSort, buildQuery,
    candidateBooks, scoredBooks, queryMatches, condMatches, popLe, scoreLe, log0]

/-- C6: no recommendation's book id is in the user's library. -/
theorem recommendations_exclude_library (log : ℚ → ℚ) (catalog : List Book)
    (user : User) (limit : ℕ) (genreFilter : Option String) (r : RecommendedBook)
    (hr : r ∈ (getRecommendations log catalog user limit genreFilter).recommendations) :
    r.id ∉ user.books.map (fun ub => ub.book) := by
  unfold getRecommendations at hr
  simp only [] at hr
  rcases List.mem_map.mp hr with ⟨p, hp, rfl⟩
  have hp' := (List.take_sublist _ _).mem hp
  have hp'' := List.mem_mergeSort.mp hp'
  have h := mem_scoredBooks hp''
  intro hmem
  have hcon : (user.books.map (fun ub => ub.book)).contains (presentBook p).id = true := by
    simpa [presentBook] using hmem
  rw [show (presentBook p).id = p.1.id from rfl, h.2.1] at hcon
  cases hcon

/-- Witness for C6: a two-book catalog where the user owns one of the
books; the returned recommendation is the other book, whose id is not in
the library. -/
theorem recommendations_exclude_library_witness :
    ((⟨"new1", "N", "A2", ["G"], "c", 3, 0⟩ : RecommendedBook) ∈
      (getRecommendations log0 [bLib, bNew] u6 10 none).recommendations) ∧
    "new1" ∉ u6.books.map (fun ub => ub.book) := by
  have heq : (getRecommendations log0 [bLib, bNew] u6 10 none).recommendations
      = [⟨"new1", "N", "A2", ["G"], "c", 3, 0⟩] := by
    simp [getRecommendations, getTopFromMap, u6, bLib, bNew, List.mergeSort, List.merge,
      buildQuery, candidateBooks, scoredBooks, queryMatches, condMatches, popLe, scoreLe,
      log0, presentBook, round2]
    norm_num [List.filterMap_cons]
    simp [List.mergeSort, presentBook, round2, scoreLe]
    norm_num
  have hmem : (⟨"new1", "N", "A2", ["G"], "c", 3, 0⟩ : RecommendedBook) ∈
      (getRecommendations log0 [bLib, bNew] u6 10 none).recommendations := by
    rw [heq]
    exact List.mem_singleton.mpr rfl
  exact ⟨hmem, recommendations_exclude_library log0 [bLib, bNew] u6 10 none _ hmem⟩

/-- C8 (amended): for a user with empty preference maps, `basedOn` is
empty, the result is ordered by score descending, and every returned book
comes from the catalog carrying the popularity-only score
`averageRating * log(totalRatings + 1)` rounded to two decimal places
(zero when `totalRatings = 0`, given `log 1 = 0`). The rounding of the
returned score is the one deviation from the claim as written. -/
theorem popularity_only_recommendations (log : ℚ → ℚ) (catalog : List Book)
    (user : User) (limit : ℕ) (genreFilter : Option String)
    (hg : user.preferredGenres = []) (ha : user.preferredAuthors = []) :
    (getRecommendations log catalog user limit genreFilter).basedOn.topGenres = [] ∧
    (getRecommendations log catalog user limit genreFilter).basedOn.topAuthors = [] ∧
    (getRecommendations log catalog user limit genreFilter).recommendations.Pairwise
      (fun a b => b.score ≤ a.score) ∧
    (∀ r ∈ (getRecommendations log catalog user limit genreFilter).recommendations,
      ∃ b, b ∈ catalog ∧ b.id = r.id ∧ r.averageRating = b.averageRating ∧
        r.score = round2 (b.averageRating * log ((b.totalRatings : ℚ) + 1)) ∧
        (log 1 = 0 → b.totalRatings = 0 → r.score = 0)) := by
  have htop : getTopFromMap user.preferredGenres 5 = [] := by
    rw [hg]
    simp [getTopFromMap, List.mergeSort]
  have hatop : getTopFromMap user.preferredAuthors 5 = [] := by
    rw [ha]
    simp [getTopFromMap, List.mergeSort]
  have hrecs : (getRecommendations log catalog user limit genreFilter).recommendations
      = (((scoredBooks log user
            (candidateBooks catalog (buildQuery [] [] genreFilter) limit)
            false).mergeSort scoreLe).take limit).map presentBook := by
    unfold getRecommendations
    rw [htop, hatop]
    simp
  refine ⟨?_, ?_, recommendations_sorted log catalog user limit genreFilter, ?_⟩
  · unfold getRecommendations
    rw [htop]
  · unfold getRecommendations
    rw [hatop]
  · intro r hr
    rw [hrecs] at hr
    rcases List.mem_map.mp hr with ⟨p, hp, rfl⟩
    have hp' := (List.take_sublist _ _).mem hp
    have hp'' := List.mem_mergeSort.mp hp'
    have h := mem_scoredBooks hp''
    have hscore : p.2 = p.1.averageRating * log ((p.1.totalRatings : ℚ) + 1) := by
      simpa using h.2.2
    refine ⟨p.1, (mem_candidateBooks h.1).1, rfl, rfl, ?_, ?_⟩
    · rw [show (presentBook p).score = round2 p.2 from rfl, hscore]
    · intro hlog1 htot
      rw [show (presentBook p).score = round2 p.2 from rfl, hscore, htot]
      norm_num [hlog1, round2_zero]

/-- Witness for C8 (amended) at a concrete empty-preference user. -/
theorem popularity_only_recommendations_witness :
    (u8.preferredGenres = [] ∧ u8.preferredAuthors = []) ∧
    ((getRecommendations log3 [b8] u8 10 none).basedOn.topGenres = [] ∧
     (getRecommendations log3 [b8] u8 10 none).basedOn.topAuthors = [] ∧
     (getRecommendations log3 [b8] u8 10 none).recommendations.Pairwise
       (fun a b => b.score ≤ a.score) ∧
     (∀ r ∈ (getRecommendations log3 [b8] u8 10 none).recommendations,
       ∃ b, b ∈ [b8] ∧ b.id = r.id ∧ r.averageRating = b.averageRating ∧
         r.score = round2 (b.averageRating * log3 ((b.totalRatings : ℚ) + 1)) ∧
         (log3 1 = 0 → b.totalRatings = 0 → r.score = 0))) :=
  ⟨⟨rfl, rfl⟩, popularity_only_recommendations log3 [b8] u8 10 none rfl rfl⟩

/-- C8 counterexample: with the empty-preference user, the single returned
score is the rounded value 5.49, which differs from the exact
popularity formula `5 * log(3)` (`log` standing for `Math.log`, whose
IEEE-double value at 3 is `1.0986122886681098`). -/
theorem popularity_only_counterexample :
    u8.preferredGenres = [] ∧ u8.preferredAuthors = [] ∧
    (getRecommendations log3 [b8] u8 10 none).recommendations.map (fun r => r.score)
      = [549/100] ∧
    (549/100 : ℚ) ≠ b8.averageRating * log3 ((b8.totalRatings : ℚ) + 1) := by
  refine ⟨rfl, rfl, ?_, ?_⟩
  · simp [getRecommendations, getTopFromMap, u8, b8, List.mergeSort, buildQuery,
      candidateBooks, scoredBooks, queryMatches, condMatches, popLe, scoreLe, log3,
      presentBook, round2]
    norm_num
  · norm_num [b8, log3]

/-- The recommendation list never exceeds the requested limit. -/
theorem recommendations_length_le (log : ℚ → ℚ) (catalog : List Book) (user : User)
    (limit : ℕ) (genreFilter : Option String) :
    (getRecommendations log catalog user limit genreFilter).recommendations.length ≤ limit := by
  unfold getRecommendations
  simp only [List.length_map, List.length_take]
  exact min_le_left _ _

/-- C9: the returned list is exactly the scored candidate list
stable-sorted by score descending ( `List.mergeSort` is stable), truncated
to `limit`, with each score rounded to two decimals by `presentBook`; its
length never exceeds `limit`; it is pairwise descending in score; the
route's effective limit for a requested `limit=100` is 50; and the handler
then returns at most 50 recommendations. -/
theorem recommendations_pipeline (log : ℚ → ℚ) (catalog : List Book) (user : User)
    (limit : ℕ) (genreFilter : Option String) :
    (getRecommendations log catalog user limit genreFilter).recommendations =
      (((scoredBooks log user
           (candidateBooks catalog
             (buildQuery (getTopFromMap user.preferredGenres 5)
               (getTopFromMap user.preferredAuthors 5) genreFilter) limit)
           (!(getTopFromMap user.preferredGenres 5).isEmpty ||
            !(getTopFromMap user.preferredAuthors 5).isEmpty)).mergeSort
          scoreLe).take limit).map presentBook ∧
    (getRecommendations log catalog user limit genreFilter).recommendations.length ≤ limit ∧
    (getRecommendations log catalog user limit genreFilter).recommendations.Pairwise
      (fun a b => b.score ≤ a.score) ∧
    effectiveLimit (JSNum.num 100) = 50 ∧
    recommendationCount
      (handleGetRecommendations log catalog (some user) (JSNum.num 100)) ≤ 50 := by
  refine ⟨rfl, recommendations_length_le log catalog user limit genreFilter,
    recommendations_sorted log catalog user limit genreFilter, ?_, ?_⟩
  · norm_num [effectiveLimit, numberOr10]
  · have h50 : (⌊effectiveLimit (JSNum.num 100)⌋).toNat = 50 := by
      norm_num [effectiveLimit, numberOr10]
      decide
    unfold handleGetRecommendations
    rw [h50]
    exact recommendations_length_le log catalog user 50 none

/-! ### C10: positivity of all stored preference weights -/

theorem posVals_mapSet {m : WeightMap} {k : String} {v : ℚ}
    (hm : ∀ p ∈ m, 0 < p.2) (hv : 0 < v) : ∀ p ∈ mapSet m k v, 0 < p.2 := by
  intro p hp
  unfold mapSet at hp
  split at hp
  · rcases List.mem_map.mp hp with ⟨q, hq, hpq⟩
    by_cases h : q.1 = k
    · rw [if_pos h] at hpq
      subst hpq
      exact hv
    · rw [if_neg h] at hpq
      subst hpq
      exact hm q hq
  · rcases List.mem_append.mp hp with h | h
    · exact hm p h
    · rcases List.mem_singleton.mp h with rfl
      exact hv

theorem mapGet_getD_nonneg {m : WeightMap} (hm : ∀ p ∈ m, 0 < p.2) (k : String) :
    0 ≤ (mapGet m k).getD 0 := by
  unfold mapGet
  cases hfind : m.find? (fun p => p.1 = k) with
  | none => simp
  | some q =>
      simp only [Option.map_some', Option.getD_some]
      exact le_of_lt (hm q (List.mem_of_find?_eq_some hfind))

theorem posVals_addGenreScores {w : ℚ} (genres : List String) (gs : WeightMap)
    (hg : ∀ p ∈ gs, 0 < p.2) (hw : 0 < w) :
    ∀ p ∈ addGenreScores gs genres w, 0 < p.2 := by
  induction genres generalizing gs with
  | nil => simpa [addGenreScores] using hg
  | cons g rest ih =>
      unfold addGenreScores at *
      rw [List.foldl_cons]
      exact ih _ (posVals_mapSet hg (by linarith [mapGet_getD_nonneg hg g]))

theorem posVals_accumEntry (catalog : List Book) (favorites : List String)
    (acc : WeightMap × WeightMap) (ub : UserBook)
    (h1 : ∀ p ∈ acc.1, 0 < p.2) (h2 : ∀ p ∈ acc.2, 0 < p.2) :
    (∀ p ∈ (accumEntry catalog favorites acc ub).1, 0 < p.2) ∧
    (∀ p ∈ (accumEntry catalog favorites acc ub).2, 0 < p.2) := by
  unfold accumEntry
  cases findBook catalog ub.book with
  | none => exact ⟨h1, h2⟩
  | some book =>
      simp only []
      by_cases hw : entryWeight favorites book.id ub ≤ 0
      · rw [if_pos hw]
        exact ⟨h1, h2⟩
      · rw [if_neg hw]
        have hw' : 0 < entryWeight favorites book.id ub := not_le.mp hw
        constructor
        · exact posVals_addGenreScores book.genres acc.1 h1 hw'
        · by_cases hauth : book.author = ""
          · rw [if_pos hauth]
            exact h2
          · rw [if_neg hauth]
            exact posVals_mapSet h2 (by linarith [mapGet_getD_nonneg h2 book.author])

theorem posVals_foldl_accumEntry (catalog : List Book) (favorites : List String)
    (books : List UserBook) (acc : WeightMap × WeightMap)
    (h1 : ∀ p ∈ acc.1, 0 < p.2) (h2 : ∀ p ∈ acc.2, 0 < p.2) :
    (∀ p ∈ (books.foldl (accumEntry catalog favorites) acc).1, 0 < p.2) ∧
    (∀ p ∈ (books.foldl (accumEntry catalog favorites) acc).2, 0 < p.2) := by
  induction books generalizing acc with
  | nil => exact ⟨h1, h2⟩
  | cons ub rest ih =>
      rw [List.foldl_cons]
      have h := posVals_accumEntry catalog favorites acc ub h1 h2
      exact ih _ h.1 h.2

theorem mapGet_some_pos {m : WeightMap} (hm : ∀ p ∈ m, 0 < p.2) {k : String} {w : ℚ}
    (hget : mapGet m k = some w) : 0 < w := by
  unfold mapGet at hget
  cases hfind : m.find? (fun p => p.1 = k) with
  | none =>
      rw [hfind] at hget
      cases hget
  | some q =>
      rw [hfind] at hget
      simp only [Option.map_some', Option.some.injEq] at hget
      rw [← hget]
      exact hm q (List.mem_of_find?_eq_some hfind)

/-- C10: after any run of `updateUserPreferences`, every weight stored in
`preferredGenres` or `preferredAuthors` is strictly positive (entries with
weight `≤ 0` are skipped before touching the maps). -/
theorem preference_weights_positive (catalog : List Book) (user : User)
    (k : String) (w : ℚ) :
    (mapGet (updateUserPreferences catalog user).preferredGenres k = some w → 0 < w) ∧
    (mapGet (updateUserPreferences catalog user).preferredAuthors k = some w → 0 < w) := by
  have hnil1 : ∀ p ∈ (([], []) : WeightMap × WeightMap).1, (0:ℚ) < p.2 := by
    intro p hp
    cases hp
  have hnil2 : ∀ p ∈ (([], []) : WeightMap × WeightMap).2, (0:ℚ) < p.2 := by
    intro p hp
    cases hp
  have h := posVals_foldl_accumEntry catalog user.favorites user.books ([], []) hnil1 hnil2
  exact ⟨fun hget => mapGet_some_pos h.1 hget, fun hget => mapGet_some_pos h.2 hget⟩

/-- Witness for C10: a library with one 5-star read book stores genre
weight 1, which is positive. -/
theorem preference_weights_positive_witness :
    mapGet (updateUserPreferences [b10] u10).preferredGenres "Fantasy" = some 1 ∧
    (0:ℚ) < 1 := by
  have hget : mapGet (updateUserPreferences [b10] u10).preferredGenres "Fantasy" = some 1 := by
    simp [updateUserPreferences, u10, b10, accumEntry, findBook, entryWeight,
      ratingToWeight, addGenreScores, mapSet, mapGet, ratingTruthy]
    norm_num
  exact ⟨hget, (preference_weights_positive [b10] u10 "Fantasy" 1).1 hget⟩

end BookNet
